import Mathlib

/-!
Verification of the letta-proxy forwarding service (src/proxy/src/index.ts)
against its natural-language specification.

The TypeScript source is shallowly embedded below: the request classifier,
header sanitization, body extraction, upstream forwarding, and the webhook
notifier are translated into pure Lean functions over explicit request /
configuration / upstream-behaviour values.  JavaScript `Headers` objects are
modelled as association lists with case-insensitive names, JSON values by an
inductive type (numbers are modelled as integers: no claim depends on the
number grammar), and the single-read body stream by an explicit string that
the code duplicates before use, exactly as the source does.
-/

namespace LettaProxy

/-! ### Generic string utilities -/

/-- Boolean test that `p` is a prefix of `s` (character lists). -/
def prefixL : List Char → List Char → Bool
  | [], _ => true
  | _ :: _, [] => false
  | a :: as, b :: bs => a == b && prefixL as bs

/-- Boolean test that `sub` occurs somewhere inside `s` (character lists). -/
def infixL (sub : List Char) : List Char → Bool
  | [] => prefixL sub []
  | c :: rest => prefixL sub (c :: rest) || infixL sub rest

/-- Model of JavaScript `String.prototype.includes`. -/
def strIncludes (s sub : String) : Bool :=
  infixL sub.toList s.toList

/-! ### Header maps

JavaScript `Headers` are case-insensitive; `get`/`delete`/`set` normalise the
name.  We model a header map as an association list and make every operation
compare names after ASCII lower-casing (header names are ASCII), which
matches the observable behaviour of `Headers` for the operations the source
uses. -/

/-- ASCII lower-casing of a character. -/
def lowerChar (c : Char) : Char :=
  if 'A' ≤ c && c ≤ 'Z' then Char.ofNat (c.toNat + 32) else c

/-- ASCII lower-casing of a string (header names are ASCII). -/
def lowerStr (s : String) : String :=
  String.mk (s.toList.map lowerChar)

abbrev HeaderMap := List (String × String)

/-- Model of `Headers.prototype.get` (case-insensitive; `null` becomes `none`). -/
def hGet (h : HeaderMap) (name : String) : Option String :=
  match h.find? (fun p => lowerStr p.1 == lowerStr name) with
  | some p => some p.2
  | none => none

/-- Model of `Headers.prototype.delete` (case-insensitive, removes all matches). -/
def hDelete (h : HeaderMap) (name : String) : HeaderMap :=
  h.filter (fun p => lowerStr p.1 != lowerStr name)

/-- Model of `Headers.prototype.set`: replaces any entry of that name with a
single entry.  (`Headers` stores names lower-cased; since every lookup in the
model is case-insensitive the stored case is unobservable, so the name is kept
as given.) -/
def hSet (h : HeaderMap) (name value : String) : HeaderMap :=
  hDelete h name ++ [(name, value)]

/-! ### JSON values

Model of the JSON values produced by `JSON.parse`.  Numbers are modelled as
integers (the claims under verification never depend on fractional or
exponent syntax; a body using them is outside the model). -/

inductive Json where
  | null : Json
  | bool (b : Bool) : Json
  | num (n : Int) : Json
  | str (s : String) : Json
  | arr (elems : List Json) : Json
  | obj (fields : List (String × Json)) : Json

/-! ### JSON parsing

A fuel-indexed recursive-descent parser modelling `JSON.parse`.  It accepts
whitespace, `null`/`true`/`false`, integer numbers, strings with the standard
escapes (including `\uXXXX`), arrays and objects, and fails (returns `none`,
modelling a thrown `SyntaxError`) on anything else.  The fuel is only a
termination device: it strictly exceeds the input length, and every recursive
call both consumes fuel and follows the consumption of at least one input
character, so well-formed inputs never exhaust it. -/

def isWsChar (c : Char) : Bool :=
  c == ' ' || c == '\r' || c == '\n' || c == '\t'

def skipWs (s : List Char) : List Char :=
  s.dropWhile isWsChar

/-- Value of one hexadecimal digit, by code point. -/
def hexVal (c : Char) : Option Nat :=
  let n := c.toNat
  if 48 ≤ n && n ≤ 57 then some (n - 48)
  else if 97 ≤ n && n ≤ 102 then some (n - 87)
  else if 65 ≤ n && n ≤ 70 then some (n - 55)
  else none

def isDigitChar (c : Char) : Bool :=
  48 ≤ c.toNat && c.toNat ≤ 57

/-- Digits of a decimal literal folded into a `Nat`. -/
def digitsVal (ds : List Char) : Nat :=
  ds.foldl (fun acc c => 10 * acc + (c.toNat - 48)) 0

/-- Body of a JSON string literal, after the opening quote; returns the
decoded characters and the input after the closing quote. -/
def parseStringBody : Nat → List Char → Option (List Char × List Char)
  | 0, _ => none
  | _ + 1, [] => none
  | fuel + 1, c :: rest =>
    if c == '"' then some ([], rest)
    else if c == '\\' then
      match rest with
      | [] => none
      | e :: rest2 =>
        let dec : Option (Char × List Char) :=
          if e == '"' then some ('"', rest2)
          else if e == '\\' then some ('\\', rest2)
          else if e == '/' then some ('/', rest2)
          else if e == 'n' then some ('\n', rest2)
          else if e == 't' then some ('\t', rest2)
          else if e == 'r' then some ('\r', rest2)
          else if e == 'b' then some ('\x08', rest2)
          else if e == 'f' then some ('\x0c', rest2)
          else if e == 'u' then
            match rest2 with
            | h1 :: h2 :: h3 :: h4 :: rest3 =>
              match hexVal h1, hexVal h2, hexVal h3, hexVal h4 with
              | some a, some b, some c2, some d =>
                some (Char.ofNat (((a * 16 + b) * 16 + c2) * 16 + d), rest3)
              | _, _, _, _ => none
            | _ => none
          else none
        match dec with
        | some (ch, r) =>
          match parseStringBody fuel r with
          | some (cs, r2) => some (ch :: cs, r2)
          | none => none
        | none => none
    else
      match parseStringBody fuel rest with
      | some (cs, r2) => some (c :: cs, r2)
      | none => none

mutual

/-- One JSON value starting at the (whitespace-trimmed) front of the input;
returns the value and the remaining input. -/
def parseValue : Nat → List Char → Option (Json × List Char)
  | 0, _ => none
  | fuel + 1, s =>
    match skipWs s with
    | [] => none
    | c :: rest =>
      if c == '\x7b' then
        match skipWs rest with
        | '\x7d' :: r => some (.obj [], r)
        | r => match parseMembers fuel r with
               | some (fs, r2) => some (.obj fs, r2)
               | none => none
      else if c == '[' then
        match skipWs rest with
        | ']' :: r => some (.arr [], r)
        | r => match parseItems fuel r with
               | some (xs, r2) => some (.arr xs, r2)
               | none => none
      else if c == '"' then
        match parseStringBody (fuel + 1) rest with
        | some (cs, r) => some (.str (String.mk cs), r)
        | none => none
      else if c == 't' then
        if prefixL "true".toList (c :: rest) then some (.bool true, rest.drop 3)
        else none
      else if c == 'f' then
        if prefixL "false".toList (c :: rest) then some (.bool false, rest.drop 4)
        else none
      else if c == 'n' then
        if prefixL "null".toList (c :: rest) then some (.null, rest.drop 3)
        else none
      else if c == '-' then
        let ds := rest.takeWhile isDigitChar
        if ds.isEmpty then none
        else some (.num (-(digitsVal ds : Int)), rest.drop ds.length)
      else if isDigitChar c then
        let ds := (c :: rest).takeWhile isDigitChar
        some (.num (digitsVal ds : Int), (c :: rest).drop ds.length)
      else none

/-- One or more `"key": value` members of an object, with separators, up to
and including the closing brace. -/
def parseMembers : Nat → List Char → Option (List (String × Json) × List Char)
  | 0, _ => none
  | fuel + 1, s =>
    match skipWs s with
    | '"' :: rest =>
      match parseStringBody (fuel + 1) rest with
      | some (key, r1) =>
        match skipWs r1 with
        | ':' :: r2 =>
          match parseValue fuel r2 with
          | some (v, r3) =>
            match skipWs r3 with
            | ',' :: r4 =>
              match parseMembers fuel r4 with
              | some (fs, r5) => some ((String.mk key, v) :: fs, r5)
              | none => none
            | '\x7d' :: r4 => some ([(String.mk key, v)], r4)
            | _ => none
          | none => none
        | _ => none
      | none => none
    | _ => none

/-- One or more array elements, with separators, up to and including the
closing bracket. -/
def parseItems : Nat → List Char → Option (List Json × List Char)
  | 0, _ => none
  | fuel + 1, s =>
    match parseValue fuel s with
    | some (v, r) =>
      match skipWs r with
      | ',' :: r2 =>
        match parseItems fuel r2 with
        | some (xs, r3) => some (v :: xs, r3)
        | none => none
      | ']' :: r2 => some ([v], r2)
      | _ => none
    | none => none

end

/-- Model of `JSON.parse`: the whole input must be a single JSON value plus
whitespace; `none` models a thrown `SyntaxError`. -/
def parseJson (s : String) : Option Json :=
  match parseValue (s.length + 1) s.toList with
  | some (v, rest) => if (skipWs rest).isEmpty then some v else none
  | none => none

/-! ### JSON serialization, modelling `JSON.stringify` (no spacing). -/

def escapeChar (c : Char) : List Char :=
  if c == '"' then ['\\', '"']
  else if c == '\\' then ['\\', '\\']
  else if c == '\n' then ['\\', 'n']
  else if c == '\t' then ['\\', 't']
  else if c == '\r' then ['\\', 'r']
  else if c == '\x08' then ['\\', 'b']
  else if c == '\x0c' then ['\\', 'f']
  else [c]

def escapeString (s : String) : String :=
  String.mk (s.toList.foldr (fun c acc => escapeChar c ++ acc) [])

def quoteString (s : String) : String :=
  "\"" ++ escapeString s ++ "\""

mutual

/-- Model of `JSON.stringify` with no indentation: object fields keep
insertion order, no whitespace is inserted. -/
def jsonStringify : Json → String
  | .null => "null"
  | .bool true => "true"
  | .bool false => "false"
  | .num n => toString n
  | .str s => quoteString s
  | .arr xs => "[" ++ stringifyItems xs ++ "]"
  | .obj fs => "\x7b" ++ stringifyFields fs ++ "\x7d"

def stringifyItems : List Json → String
  | [] => ""
  | [x] => jsonStringify x
  | x :: y :: xs => jsonStringify x ++ "," ++ stringifyItems (y :: xs)

def stringifyFields : List (String × Json) → String
  | [] => ""
  | [(k, v)] => quoteString k ++ ":" ++ jsonStringify v
  | (k, v) :: f :: fs =>
    quoteString k ++ ":" ++ jsonStringify v ++ "," ++ stringifyFields (f :: fs)

end

/-! ### Request classifier (`isMessageSendRequest`, index.ts lines 77-94)

The source tests `path.match(re)` for three regexes of the shape
`/\/v1\/agents\/[^\/]+\/messages(?:\/stream)?\/?$/`.  Each regex is anchored
only at the end (`$`), so `match` succeeds iff the regex matches some suffix
of the path.  `[^\/]+` can never give back characters to a following literal
that starts with `/`, so the greedy run of non-slash characters is the only
candidate, and after `/messages` the remaining suffix must be exactly one of
`""`, `"/"`, `"/stream"`, `"/stream/"`. -/

/-- The literal `/messages` of the two segment regexes. -/
def msgLit : List Char := "/messages".toList

/-- What `(?:\/stream)?\/?$` accepts. -/
def tailOk (r : List Char) : Bool :=
  r == [] || r == ['/'] || r == "/stream".toList || r == "/stream/".toList

/-- Match of `<header>[^\/]+\/messages(?:\/stream)?\/?$` against the whole of
`s` (used with `header` equal to `/v1/agents/` or `/v1/groups/`). -/
def matchSegAt (header : List Char) (s : List Char) : Bool :=
  if s.take header.length == header then
    let rest := s.drop header.length
    let seg := rest.takeWhile (fun c => c != '/')
    let r := rest.drop seg.length
    !seg.isEmpty && (r.take 9 == msgLit && tailOk (r.drop 9))
  else false

/-- Match of `\/v1\/messages\/batches\/?$` against the whole of `s`. -/
def matchBatchAt (s : List Char) : Bool :=
  s == "/v1/messages/batches".toList || s == "/v1/messages/batches/".toList

/-- JavaScript `String.prototype.match` with an end-anchored regex: try the
full-match test on every suffix. -/
def regexSearch (f : List Char → Bool) : List Char → Bool
  | [] => f []
  | c :: rest => f (c :: rest) || regexSearch f rest

def agentHeader : List Char := "/v1/agents/".toList

def groupHeader : List Char := "/v1/groups/".toList

/-- Model of `isMessageSendRequest` (index.ts lines 77-94): three
`path.match(...) && method === "POST"` tests in order. -/
def isMessageSendRequest (path method : String) : Bool :=
  if regexSearch (matchSegAt agentHeader) path.toList && method == "POST" then true
  else if regexSearch (matchSegAt groupHeader) path.toList && method == "POST" then true
  else if regexSearch matchBatchAt path.toList && method == "POST" then true
  else false

/-! ### Declarative path patterns (the spec's §4.1 reading) -/

/-- The admissible endings after `/messages`: nothing, a trailing slash, a
`/stream` suffix, or `/stream/`. -/
def segTails : List (List Char) := [[], ['/'], "/stream".toList, "/stream/".toList]

/-- Declarative form of `<header>{id}/messages[/stream][/]` anchored at both
ends: `{id}` is a non-empty segment without `/`. -/
def SegPattern (header : List Char) (s : List Char) : Prop :=
  ∃ seg t, t ∈ segTails ∧ seg ≠ [] ∧ '/' ∉ seg ∧ s = header ++ seg ++ msgLit ++ t

/-- Declarative form of `/v1/messages/batches[/]` anchored at both ends. -/
def BatchPattern (s : List Char) : Prop :=
  s = "/v1/messages/batches".toList ∨ s = "/v1/messages/batches/".toList

/-- `pat` holds of some suffix of `p`. -/
def SuffixOf (pat : List Char → Prop) (p : List Char) : Prop :=
  ∃ suf, suf <:+ p ∧ pat suf

/-! ### Configuration, requests, and the forwarding pipeline -/

/-- Startup configuration (index.ts lines 13-21): the upstream base URL is
required, the key / webhook URL / webhook secret are optional. -/
structure Config where
  lettaApiUrl : String
  lettaApiKey : Option String
  webhookUrl : Option String
  webhookSecret : Option String

/-- An inbound request.  `path` models Hono's `c.req.path`, which is the
pathname of the request URL; the query string is a separate component of the
inbound URL that the proxy code never reads.  `bodyText` is the single-read
body stream, which the code duplicates with `req.clone()` before reading. -/
structure IncomingRequest where
  method : String
  path : String
  query : String
  headers : HeaderMap
  bodyText : String

/-- Behaviour of the upstream server for the forwarded call. -/
inductive UpstreamBehavior where
  | respond (status : Nat) (body : String)
  | networkError
deriving DecidableEq

/-- The body value handed to `fetch` for the upstream call: `undefined` for
GET/HEAD, the re-serialized JSON string, the decoded form data, or the raw
byte buffer (both opaque pass-throughs carry the original bytes). -/
inductive OutBody where
  | empty
  | jsonText (s : String)
  | formData (raw : String)
  | buffer (raw : String)
deriving DecidableEq

/-- The upstream `fetch` invocation (index.ts lines 164-169); the source also
passes `redirect: "follow"`, which has no further observable footprint in the
model. -/
structure UpstreamCall where
  url : String
  method : String
  headers : HeaderMap
  body : OutBody
deriving DecidableEq

/-- The notification payload handed to `sendWebhook` (lines 197-207). -/
structure WebhookPayload where
  type : String
  timestamp : String
  prompt : Json
  reqPath : String
  reqMethod : String
  reqBody : Json
  response : Json

/-- The HTTP POST `sendWebhook` makes to the webhook target. -/
structure WebhookCall where
  url : String
  headers : HeaderMap
  body : String

/-- What the caller receives: the upstream response relayed unchanged, the
500 error envelope of the outer catch (lines 214-220), or the CORS preflight
answer for `OPTIONS`. -/
inductive ClientResponse where
  | relayed (status : Nat) (body : String)
  | proxyError (details : String)
  | preflight (headers : HeaderMap)

/-- Status code of a `ClientResponse` as the caller sees it. -/
def clientStatus : ClientResponse → Nat
  | .relayed status _ => status
  | .proxyError _ => 500
  | .preflight _ => 204

/-- Body of a `ClientResponse` as the caller sees it; the error branch is
`JSON.stringify({ error: "Proxy error", details })` per line 216. -/
def clientBody : ClientResponse → String
  | .relayed _ b => b
  | .proxyError d =>
    jsonStringify (.obj [("error", .str "Proxy error"), ("details", .str d)])
  | .preflight _ => ""

/-- Everything observable about one handled request: the upstream call made
(if any), the response returned to the caller, the payload the notifier was
invoked with (if any), and the HTTP call to the webhook target (if any). -/
structure Outcome where
  upstreamCall : Option UpstreamCall
  response : ClientResponse
  webhookDispatched : Option WebhookPayload
  webhookCall : Option WebhookCall

/-- Behaviour of the webhook target: response status per call, `none` for a
network failure.  `sendWebhook` only logs this outcome (lines 61-67), so it
is threaded through the pipeline solely to state that nothing depends on
it. -/
def WebhookNet := WebhookCall → Option Nat

/-- Modelled detail text for a `JSON.parse` syntax error caught by the outer
handler; the runtime message text is environment-specific and no claim
depends on it. -/
def parseFailDetails : String := "Unexpected token in JSON"

/-- Modelled detail text for a failed upstream `fetch`. -/
def fetchFailDetails : String := "fetch failed"

/-- Model of the header rewriting (index.ts lines 124-143): delete `host`,
`connection`, `content-length` and any `Authorization` (each delete in the
source is guarded by a presence check, which has the same effect), then set
`Authorization: Bearer <key>` iff a key is configured. -/
def sanitizeHeaders (cfg : Config) (h : HeaderMap) : HeaderMap :=
  let h1 := hDelete h "host"
  let h2 := hDelete h1 "connection"
  let h3 := hDelete h2 "content-length"
  let h4 := hDelete h3 "Authorization"
  match cfg.lettaApiKey with
  | some k => hSet h4 "Authorization" ("Bearer " ++ k)
  | none => h4

/-- Model of the body branches (lines 145-162).  Returns the body for the
upstream call plus the retained `bodyText` copy (set only in the JSON
branch); `none` models the `JSON.parse` throw that aborts the request. -/
def extractBody (method contentType bodyText : String) :
    Option (OutBody × Option String) :=
  if method != "GET" && method != "HEAD" then
    if strIncludes contentType "application/json" then
      match parseJson bodyText with
      | some j => some (.jsonText (jsonStringify j), some bodyText)
      | none => none
    else if strIncludes contentType "multipart/form-data" then
      some (.formData bodyText, none)
    else
      some (.buffer bodyText, none)
  else
    some (.empty, none)

/-- Model of `Response.ok`: status in the 2xx range. -/
def statusOk (status : Nat) : Bool :=
  decide (200 ≤ status) && decide (status ≤ 299)

/-- JS truthiness of the `bodyText` variable at line 172 (`undefined` or the
empty string are falsy). -/
def bodyTruthy : Option String → Bool
  | some t => t != ""
  | none => false

/-- JS truthiness of a JSON value (`null`, `false`, `0` and `""` are falsy). -/
def jsTruthy : Json → Bool
  | .null => false
  | .bool b => b
  | .num n => n != 0
  | .str s => s != ""
  | .arr _ => true
  | .obj _ => true

/-- Property access `value.key` on a JSON value: only objects have
properties; `JSON.parse` keeps the last of duplicate keys, modelled by
scanning from the end. -/
def jGet (j : Json) (key : String) : Option Json :=
  match j with
  | .obj fields => (fields.reverse.find? (fun p => p.1 == key)).map (fun p => p.2)
  | _ => none

/-- Index access `value[n]`: array element, or the numerically-named property
of an object.  (Character indexing of strings is not modelled: a subsequent
`.content` access on a one-character string yields `undefined` either way.) -/
def jIndex (j : Json) (n : Nat) : Option Json :=
  match j with
  | .arr xs => xs.get? n
  | .obj fields => (fields.reverse.find? (fun p => p.1 == toString n)).map (fun p => p.2)
  | _ => none

/-- Model of `requestBody?.messages?.[0]?.content` (line 194). -/
def contentLookup (j : Json) : Option Json :=
  ((jGet j "messages").bind (fun m => jIndex m 0)).bind (fun x => jGet x "content")

/-- Model of `v || ''`: absent or falsy values default to the empty string,
any truthy value passes through unchanged. -/
def jsOrEmpty (v : Option Json) : Json :=
  match v with
  | some x => if jsTruthy x then x else .str ""
  | none => .str ""

/-- Model of the notification block (lines 172-211): its guard, the stream
test by substring, the payload construction, and the enclosing `try` that
turns any failure (`responseClone.json()` on a non-JSON body) into a logged
no-op. -/
def maybeNotify (isMsg : Bool) (status : Nat) (respBody : String)
    (bodyText : Option String) (path method now : String) : Option WebhookPayload :=
  if isMsg && statusOk status && bodyTruthy bodyText then
    let isStreamResponse := strIncludes path "/stream"
    let responseBody? : Option Json :=
      if isStreamResponse then
        some (.obj [("type", .str "stream_started"), ("timestamp", .str now)])
      else
        parseJson respBody
    match responseBody? with
    | none => none
    | some responseBody =>
      match bodyText with
      | none => none
      | some t =>
        match parseJson t with
        | none => none
        | some requestBody =>
          some { type := if isStreamResponse then "stream_started" else "message_sent",
                 timestamp := now,
                 prompt := jsOrEmpty (contentLookup requestBody),
                 reqPath := path,
                 reqMethod := method,
                 reqBody := requestBody,
                 response := responseBody }
  else
    none

/-- JSON form of the webhook payload, in the field order of lines 197-207. -/
def payloadToJson (p : WebhookPayload) : Json :=
  .obj [("type", .str p.type),
        ("timestamp", .str p.timestamp),
        ("prompt", p.prompt),
        ("request", .obj [("path", .str p.reqPath),
                          ("method", .str p.reqMethod),
                          ("body", p.reqBody)]),
        ("response", p.response)]

/-- Model of `sendWebhook` (lines 39-69): the HTTP POST made to the webhook
target, `none` when no URL is configured.  The target's answer is only
logged and every failure is caught, so nothing of it escapes this call. -/
def sendWebhook (cfg : Config) (payload : WebhookPayload) : Option WebhookCall :=
  match cfg.webhookUrl with
  | none => none
  | some u =>
    let hs : HeaderMap :=
      match cfg.webhookSecret with
      | some s => [("Content-Type", "application/json"), ("X-Webhook-Secret", s)]
      | none => [("Content-Type", "application/json")]
    some { url := u, headers := hs, body := jsonStringify (payloadToJson payload) }

/-- Split a character list at the first occurrence of `://`. -/
def schemeSplit : List Char → Option (List Char × List Char)
  | [] => none
  | c :: rest =>
    if prefixL "://".toList (c :: rest) then some ([], (c :: rest).drop 3)
    else
      match schemeSplit rest with
      | some (pre, post) => some (c :: pre, post)
      | none => none

/-- The origin (`scheme://host[:port]`) of a base URL. -/
def urlOrigin (base : String) : String :=
  match schemeSplit base.toList with
  | some (pre, post) =>
    String.mk (pre ++ "://".toList ++
      post.takeWhile (fun c => c != '/' && c != '?' && c != '#'))
  | none => base

/-- Model of `new URL(path, base)` (line 121) for a `path` that starts with
`/`, as every Hono pathname does: absolute-path resolution keeps only the
origin of the base and replaces its path and query entirely. -/
def resolveUrl (base path : String) : String :=
  urlOrigin base ++ path

/-- The URL the spec's words promise for the upstream call (§6):
`<upstream-base><original-path>?<original-query>`.  Stated from the spec, to
be compared with the modelled behaviour. -/
def specUpstreamUrl (cfg : Config) (req : IncomingRequest) : String :=
  cfg.lettaApiUrl ++ req.path ++ (if req.query == "" then "" else "?" ++ req.query)

/-- Model of `forwardRequest` (index.ts lines 96-221) for one request: the
classification, the URL construction, the header rewriting, the body
extraction (whose parse failure aborts into the catch with a 500), the
upstream `fetch` (a transport failure also lands in the catch), the
response relay, and the conditional, detached notification.  `whNet` is the
webhook target's behaviour; it is deliberately never read, because the code
neither awaits `sendWebhook` nor lets any of its failures escape. -/
def forwardRequest (cfg : Config) (req : IncomingRequest)
    (upstream : UpstreamBehavior) (now : String) (whNet : WebhookNet) : Outcome :=
  let isMessageRequest := isMessageSendRequest req.path req.method
  let targetUrl := resolveUrl cfg.lettaApiUrl req.path
  let h := sanitizeHeaders cfg req.headers
  let contentType := (hGet h "content-type").getD ""
  match extractBody req.method contentType req.bodyText with
  | none =>
    { upstreamCall := none,
      response := .proxyError parseFailDetails,
      webhookDispatched := none,
      webhookCall := none }
  | some (body, bodyText) =>
    let call : UpstreamCall :=
      { url := targetUrl, method := req.method, headers := h, body := body }
    match upstream with
    | .networkError =>
      { upstreamCall := some call,
        response := .proxyError fetchFailDetails,
        webhookDispatched := none,
        webhookCall := none }
    | .respond status respBody =>
      let wp := maybeNotify isMessageRequest status respBody bodyText
        req.path req.method now
      { upstreamCall := some call,
        response := .relayed status respBody,
        webhookDispatched := wp,
        webhookCall := wp.bind (sendWebhook cfg) }

/-- The CORS preflight answer derived from the configuration at lines 23-33:
origin `*`, the six configured methods, all headers, credentials enabled,
24-hour max-age. -/
def corsPreflightHeaders : HeaderMap :=
  [("access-control-allow-origin", "*"),
   ("access-control-allow-methods", "GET,POST,PUT,DELETE,OPTIONS,PATCH"),
   ("access-control-allow-headers", "*"),
   ("access-control-allow-credentials", "true"),
   ("access-control-max-age", "86400")]

/-- Model of the served app (lines 23-33 and 223-228): the CORS middleware
answers every `OPTIONS` request itself with `204` and the preflight headers
(the explicit `OPTIONS` branch of `app.all` sits behind it and is therefore
subsumed); every other request goes to `forwardRequest`. -/
def handleRequest (cfg : Config) (req : IncomingRequest)
    (upstream : UpstreamBehavior) (now : String) (whNet : WebhookNet) : Outcome :=
  if req.method == "OPTIONS" then
    { upstreamCall := none,
      response := .preflight corsPreflightHeaders,
      webhookDispatched := none,
      webhookCall := none }
  else
    forwardRequest cfg req upstream now whNet

/-- The `bodyText` value retained for the webhook on a given request: set
only when the JSON branch of `extractBody` ran successfully. -/
def capturedText (cfg : Config) (req : IncomingRequest) : Option String :=
  match extractBody req.method
      ((hGet (sanitizeHeaders cfg req.headers) "content-type").getD "")
      req.bodyText with
  | some (_, bt) => bt
  | none => none

/-- Split a character list on `/` (model of `String.prototype.split('/')`). -/
def splitOnSlash : List Char → List (List Char)
  | [] => [[]]
  | c :: rest =>
    if c == '/' then [] :: splitOnSlash rest
    else
      match splitOnSlash rest with
      | s :: ss => (c :: s) :: ss
      | [] => [[c]]

/-- The claim's reading of "the path contains the `/stream` segment": some
path segment is exactly `stream`.  Stated from the spec's words, to be
compared with the source's substring test. -/
def hasStreamSegment (path : String) : Bool :=
  (splitOnSlash path.toList).contains "stream".toList

/-- Whether a JSON value is a string (used to state the claim that the
`prompt` field is always a string). -/
def isJsonString : Json → Bool
  | .str _ => true
  | _ => false

/-! ### Concrete example values used by witnesses and counterexamples -/

def cfgEx : Config :=
  { lettaApiUrl := "http://letta.example:8283", lettaApiKey := some "KEY",
    webhookUrl := some "http://hooks.example/webhook", webhookSecret := some "SECRET" }

def reqEx : IncomingRequest :=
  { method := "POST", path := "/v1/agents/a/messages", query := "",
    headers := [("Host", "proxy.local"), ("Authorization", "Bearer caller"),
                ("content-type", "application/json"), ("x-custom", "1"),
                ("connection", "keep-alive"), ("content-length", "42")],
    bodyText := "\x7b\"messages\":[\x7b\"content\":\"hi\"\x7d]\x7d" }

def whEx : WebhookNet := fun _ => some 200

def upstreamCallEx : UpstreamCall :=
  { url := "http://letta.example:8283/v1/agents/a/messages", method := "POST",
    headers := [("content-type", "application/json"), ("x-custom", "1"),
                ("Authorization", "Bearer KEY")],
    body := .jsonText "\x7b\"messages\":[\x7b\"content\":\"hi\"\x7d]\x7d" }

def reqQueryEx : IncomingRequest :=
  { method := "GET", path := "/v1/agents", query := "limit=5",
    headers := [], bodyText := "" }

def upstreamQueryCallEx : UpstreamCall :=
  { url := "http://letta.example:8283/v1/agents", method := "GET",
    headers := [("Authorization", "Bearer KEY")], body := .empty }

def reqOptionsEx : IncomingRequest :=
  { method := "OPTIONS", path := "/v1/anything", query := "",
    headers := [("origin", "http://app.example")], bodyText := "" }

def reqBadJsonEx : IncomingRequest :=
  { method := "POST", path := "/v1/agents/a/messages", query := "",
    headers := [("content-type", "application/json")], bodyText := "notjson" }

def reqSpacedEx : IncomingRequest :=
  { method := "POST", path := "/v1/other", query := "",
    headers := [("content-type", "application/json; charset=utf-8")],
    bodyText := "\x7b \"a\" : 1 \x7d" }

def reqStreamEx : IncomingRequest :=
  { method := "POST", path := "/v1/agents/a/messages/stream", query := "",
    headers := [("content-type", "application/json")],
    bodyText := "\x7b\"messages\":[\x7b\"content\":\"hi\"\x7d]\x7d" }

def reqFakeStreamEx : IncomingRequest :=
  { method := "POST", path := "/v1/agents/stream123/messages", query := "",
    headers := [("content-type", "application/json")],
    bodyText := "\x7b\"messages\":[\x7b\"content\":\"hi\"\x7d]\x7d" }

def reqZeroContentEx : IncomingRequest :=
  { method := "POST", path := "/v1/agents/a/messages", query := "",
    headers := [("content-type", "application/json")],
    bodyText := "\x7b\"messages\":[\x7b\"content\":0\x7d]\x7d" }

def reqNumContentEx : IncomingRequest :=
  { method := "POST", path := "/v1/agents/a/messages", query := "",
    headers := [("content-type", "application/json")],
    bodyText := "\x7b\"messages\":[\x7b\"content\":42\x7d]\x7d" }

def streamPayloadEx : WebhookPayload :=
  { type := "stream_started", timestamp := "T", prompt := .str "hi",
    reqPath := "/v1/agents/a/messages/stream", reqMethod := "POST",
    reqBody := .obj [("messages", .arr [.obj [("content", .str "hi")]])],
    response := .obj [("type", .str "stream_started"), ("timestamp", .str "T")] }

def msgPayloadEx : WebhookPayload :=
  { type := "message_sent", timestamp := "T", prompt := .str "hi",
    reqPath := "/v1/agents/a/messages", reqMethod := "POST",
    reqBody := .obj [("messages", .arr [.obj [("content", .str "hi")]])],
    response := .obj [("id", .str "m1")] }

/-! ### Supporting lemmas -/

theorem hGet_hDelete_self (h : HeaderMap) (n m : String)
    (hnm : lowerStr m = lowerStr n) : hGet (hDelete h n) m = none := by
  induction h with
  | nil => rfl
  | cons p t ih =>
    simp only [hDelete, List.filter] at *
    cases hp : (lowerStr p.1 != lowerStr n) with
    | false => simpa [hDelete] using ih
    | true =>
      simp only [hGet, List.find?]
      have hne : (lowerStr p.1 == lowerStr m) = false := by
        rw [hnm]
        simpa using hp
      rw [hne]
      simpa [hGet, hDelete] using ih

theorem hGet_hDelete_other (h : HeaderMap) (n m : String)
    (hnm : lowerStr m ≠ lowerStr n) : hGet (hDelete h n) m = hGet h m := by
  induction h with
  | nil => rfl
  | cons p t ih =>
    simp only [hDelete, List.filter]
    cases hp : (lowerStr p.1 != lowerStr n) with
    | false =>
      have hpn : lowerStr p.1 = lowerStr n := by simpa using hp
      have : (lowerStr p.1 == lowerStr m) = false := by
        apply beq_false_of_ne
        rw [hpn]
        exact fun hc => hnm hc.symm
      simp only [hGet, List.find?, this]
      simpa [hGet, hDelete] using ih
    | true =>
      simp only [hGet, List.find?]
      cases hq : (lowerStr p.1 == lowerStr m) with
      | true => rfl
      | false => simpa [hGet, hDelete] using ih

theorem hGet_append (h₁ h₂ : HeaderMap) (m : String) :
    hGet (h₁ ++ h₂) m = ((hGet h₁ m).or (hGet h₂ m)) := by
  induction h₁ with
  | nil => simp [hGet]
  | cons p t ih =>
    simp only [hGet, List.cons_append, List.find?] at *
    cases hq : (lowerStr p.1 == lowerStr m) with
    | true => rfl
    | false => simpa [hGet] using ih

theorem hGet_hSet_self (h : HeaderMap) (n m v : String)
    (hnm : lowerStr m = lowerStr n) : hGet (hSet h n v) m = some v := by
  unfold hSet
  rw [hGet_append, hGet_hDelete_self h n m hnm]
  have : (lowerStr n == lowerStr m) = true := by
    rw [hnm]
    exact beq_self_eq_true _
  simp [hGet, List.find?, this]

theorem hGet_hSet_other (h : HeaderMap) (n m v : String)
    (hnm : lowerStr m ≠ lowerStr n) : hGet (hSet h n v) m = hGet h m := by
  unfold hSet
  rw [hGet_append, hGet_hDelete_other h n m hnm]
  have : (lowerStr n == lowerStr m) = false :=
    beq_false_of_ne fun hc => hnm hc.symm
  simp only [hGet, List.find?, this]
  cases List.find? (fun p => lowerStr p.1 == lowerStr m) h <;> rfl

theorem tailOk_iff (r : List Char) : tailOk r = true ↔ r ∈ segTails := by
  simp [tailOk, segTails, or_assoc]

theorem takeWhile_append_stop (p : Char → Bool) (seg : List Char) (c : Char)
    (l : List Char) (h1 : ∀ a ∈ seg, p a = true) (h2 : p c = false) :
    (seg ++ c :: l).takeWhile p = seg := by
  induction seg with
  | nil => simp [List.takeWhile_cons, h2]
  | cons a as ih =>
    have ha : p a = true := h1 a (List.mem_cons_self a as)
    simp only [List.cons_append, List.takeWhile_cons, ha, if_true]
    rw [ih (fun x hx => h1 x (List.mem_cons_of_mem a hx))]

theorem matchSegAt_iff (header s : List Char) :
    matchSegAt header s = true ↔ SegPattern header s := by
  constructor
  · intro h
    unfold matchSegAt at h
    split at h
    case isFalse => simp at h
    case isTrue hhead =>
      have hhead' : s.take header.length = header := beq_iff_eq.mp hhead
      simp only [Bool.and_eq_true, beq_iff_eq, Bool.not_eq_true'] at h
      obtain ⟨hne, hmsg, htail⟩ := h
      obtain ⟨D, hD⟩ : ∃ D, s.drop header.length = D := ⟨_, rfl⟩
      rw [hD] at hne hmsg htail
      obtain ⟨g, hg⟩ : ∃ g, D.takeWhile (fun c => c != '/') = g := ⟨_, rfl⟩
      rw [hg] at hne hmsg htail
      obtain ⟨r, hr⟩ : ∃ r, D.drop g.length = r := ⟨_, rfl⟩
      rw [hr] at hmsg htail
      obtain ⟨d, hd⟩ : ∃ d, D.dropWhile (fun c => c != '/') = d := ⟨_, rfl⟩
      have hA : header ++ D = s := by
        rw [← hhead', ← hD]
        exact List.take_append_drop _ s
      have hB : g ++ d = D := by
        rw [← hg, ← hd]
        exact List.takeWhile_append_dropWhile (p := fun c => c != '/') (l := D)
      have hrd : d = r := by
        rw [← hr, ← hB, List.drop_left]
      have hmr : msgLit ++ r.drop 9 = r := by
        rw [← hmsg]
        exact List.take_append_drop 9 r
      refine ⟨g, r.drop 9, (tailOk_iff _).mp htail, ?_, ?_, ?_⟩
      · intro hcontra
        rw [hcontra] at hne
        simp at hne
      · intro hmem
        rw [← hg] at hmem
        have := List.mem_takeWhile_imp hmem
        simp at this
      · calc s = header ++ D := hA.symm
          _ = header ++ (g ++ d) := by rw [hB]
          _ = header ++ (g ++ r) := by rw [hrd]
          _ = header ++ (g ++ (msgLit ++ r.drop 9)) := by rw [hmr]
          _ = header ++ g ++ msgLit ++ r.drop 9 := by simp
  · rintro ⟨seg, t, ht, hne, hnoslash, hs⟩
    have hlen : msgLit.length = 9 := rfl
    have hmsg : msgLit = '/' :: "messages".toList := rfl
    have htake : s.take header.length = header := by
      rw [hs, show header ++ seg ++ msgLit ++ t = header ++ (seg ++ msgLit ++ t) by simp]
      exact List.take_left header _
    have hdrop : s.drop header.length = seg ++ msgLit ++ t := by
      rw [hs, show header ++ seg ++ msgLit ++ t = header ++ (seg ++ msgLit ++ t) by simp]
      exact List.drop_left header _
    have htw : (seg ++ msgLit ++ t).takeWhile (fun c => c != '/') = seg := by
      rw [show seg ++ msgLit ++ t = seg ++ ('/' :: ("messages".toList ++ t)) by
        rw [List.append_assoc, hmsg]; rfl]
      exact takeWhile_append_stop _ seg '/' _
        (fun a ha => bne_iff_ne.mpr (fun e => hnoslash (e ▸ ha))) (by simp)
    have hdrop2 : (seg ++ msgLit ++ t).drop seg.length = msgLit ++ t := by
      rw [List.append_assoc]
      exact List.drop_left seg _
    have htake9 : (msgLit ++ t).take 9 = msgLit := by
      rw [← hlen]
      exact List.take_left msgLit t
    have hdrop9 : (msgLit ++ t).drop 9 = t := by
      rw [← hlen]
      exact List.drop_left msgLit t
    simp only [matchSegAt, htake, beq_self_eq_true, if_true, hdrop, htw, hdrop2,
      htake9, hdrop9]
    simp [List.isEmpty_iff, hne, (tailOk_iff t).mpr ht]

theorem matchBatchAt_iff (s : List Char) :
    matchBatchAt s = true ↔ BatchPattern s := by
  simp [matchBatchAt, BatchPattern]

theorem regexSearch_iff (f : List Char → Bool) (p : List Char) :
    regexSearch f p = true ↔ ∃ suf, suf <:+ p ∧ f suf = true := by
  induction p with
  | nil =>
    simp [regexSearch, List.suffix_nil]
  | cons c rest ih =>
    simp only [regexSearch, Bool.or_eq_true, ih]
    constructor
    · rintro (h | ⟨suf, hsuf, hf⟩)
      · exact ⟨c :: rest, List.suffix_refl _, h⟩
      · exact ⟨suf, List.suffix_cons_iff.mpr (Or.inr hsuf), hf⟩
    · rintro ⟨suf, hsuf, hf⟩
      rcases List.suffix_cons_iff.mp hsuf with h | h
      · exact Or.inl (h ▸ hf)
      · exact Or.inr ⟨suf, h, hf⟩

theorem isMessageSendRequest_eq_or (path method : String) :
    isMessageSendRequest path method =
      ((regexSearch (matchSegAt agentHeader) path.toList ||
        regexSearch (matchSegAt groupHeader) path.toList ||
        regexSearch matchBatchAt path.toList) && (method == "POST")) := by
  unfold isMessageSendRequest
  cases regexSearch (matchSegAt agentHeader) path.toList <;>
    cases regexSearch (matchSegAt groupHeader) path.toList <;>
    cases regexSearch matchBatchAt path.toList <;>
    cases method == "POST" <;> rfl

theorem sanitize_spec (cfg : Config) (h : HeaderMap) :
    hGet (sanitizeHeaders cfg h) "host" = none ∧
    hGet (sanitizeHeaders cfg h) "connection" = none ∧
    hGet (sanitizeHeaders cfg h) "content-length" = none ∧
    (∀ k, cfg.lettaApiKey = some k →
      hGet (sanitizeHeaders cfg h) "Authorization" = some ("Bearer " ++ k)) ∧
    (cfg.lettaApiKey = none → hGet (sanitizeHeaders cfg h) "Authorization" = none) ∧
    (∀ name, lowerStr name ∉ (["host", "connection", "content-length",
        "authorization"] : List String) →
      hGet (sanitizeHeaders cfg h) name = hGet h name) := by
  refine ⟨?_, ?_, ?_, ?_, ?_, ?_⟩
  · simp only [sanitizeHeaders]
    cases cfg.lettaApiKey with
    | none =>
      rw [hGet_hDelete_other _ "Authorization" "host" (by decide),
          hGet_hDelete_other _ "content-length" "host" (by decide),
          hGet_hDelete_other _ "connection" "host" (by decide)]
      exact hGet_hDelete_self _ "host" "host" rfl
    | some k =>
      rw [hGet_hSet_other _ "Authorization" "host" _ (by decide),
          hGet_hDelete_other _ "Authorization" "host" (by decide),
          hGet_hDelete_other _ "content-length" "host" (by decide),
          hGet_hDelete_other _ "connection" "host" (by decide)]
      exact hGet_hDelete_self _ "host" "host" rfl
  · simp only [sanitizeHeaders]
    cases cfg.lettaApiKey with
    | none =>
      rw [hGet_hDelete_other _ "Authorization" "connection" (by decide),
          hGet_hDelete_other _ "content-length" "connection" (by decide)]
      exact hGet_hDelete_self _ "connection" "connection" rfl
    | some k =>
      rw [hGet_hSet_other _ "Authorization" "connection" _ (by decide),
          hGet_hDelete_other _ "Authorization" "connection" (by decide),
          hGet_hDelete_other _ "content-length" "connection" (by decide)]
      exact hGet_hDelete_self _ "connection" "connection" rfl
  · simp only [sanitizeHeaders]
    cases cfg.lettaApiKey with
    | none =>
      rw [hGet_hDelete_other _ "Authorization" "content-length" (by decide)]
      exact hGet_hDelete_self _ "content-length" "content-length" rfl
    | some k =>
      rw [hGet_hSet_other _ "Authorization" "content-length" _ (by decide),
          hGet_hDelete_other _ "Authorization" "content-length" (by decide)]
      exact hGet_hDelete_self _ "content-length" "content-length" rfl
  · intro k hk
    simp only [sanitizeHeaders, hk]
    exact hGet_hSet_self _ "Authorization" "Authorization" _ rfl
  · intro hk
    simp only [sanitizeHeaders, hk]
    exact hGet_hDelete_self _ "Authorization" "Authorization" rfl
  · intro name hname
    simp only [List.mem_cons, List.not_mem_nil, or_false, not_or] at hname
    obtain ⟨n1, n2, n3, n4⟩ := hname
    have e1 : lowerStr name ≠ lowerStr "host" := by
      rw [show lowerStr "host" = "host" from by decide]; exact n1
    have e2 : lowerStr name ≠ lowerStr "connection" := by
      rw [show lowerStr "connection" = "connection" from by decide]; exact n2
    have e3 : lowerStr name ≠ lowerStr "content-length" := by
      rw [show lowerStr "content-length" = "content-length" from by decide]; exact n3
    have e4 : lowerStr name ≠ lowerStr "Authorization" := by
      rw [show lowerStr "Authorization" = "authorization" from by decide]; exact n4
    simp only [sanitizeHeaders]
    cases cfg.lettaApiKey with
    | none =>
      rw [hGet_hDelete_other _ "Authorization" name e4,
          hGet_hDelete_other _ "content-length" name e3,
          hGet_hDelete_other _ "connection" name e2,
          hGet_hDelete_other _ "host" name e1]
    | some k =>
      rw [hGet_hSet_other _ "Authorization" name _ e4,
          hGet_hDelete_other _ "Authorization" name e4,
          hGet_hDelete_other _ "content-length" name e3,
          hGet_hDelete_other _ "connection" name e2,
          hGet_hDelete_other _ "host" name e1]

theorem forwardRequest_call_fields (cfg : Config) (req : IncomingRequest)
    (up : UpstreamBehavior) (now : String) (w : WebhookNet) (c : UpstreamCall)
    (hc : (forwardRequest cfg req up now w).upstreamCall = some c) :
    c.url = resolveUrl cfg.lettaApiUrl req.path ∧ c.method = req.method ∧
    c.headers = sanitizeHeaders cfg req.headers ∧
    (∃ bt, extractBody req.method
        ((hGet (sanitizeHeaders cfg req.headers) "content-type").getD "")
        req.bodyText = some (c.body, bt)) := by
  cases hE : extractBody req.method
      ((hGet (sanitizeHeaders cfg req.headers) "content-type").getD "")
      req.bodyText with
  | none =>
    simp only [forwardRequest, hE] at hc
    exact Option.noConfusion hc
  | some p =>
    obtain ⟨b, bt⟩ := p
    have hcall : c =
        { url := resolveUrl cfg.lettaApiUrl req.path,
          method := req.method,
          headers := sanitizeHeaders cfg req.headers,
          body := b } := by
      cases up with
      | networkError =>
        simp only [forwardRequest, hE] at hc
        exact (Option.some.inj hc).symm
      | respond st rb =>
        simp only [forwardRequest, hE] at hc
        exact (Option.some.inj hc).symm
    subst hcall
    exact ⟨rfl, rfl, rfl, ⟨bt, rfl⟩⟩

theorem extractBody_eq_branch (method ct bodyText : String)
    (h1 : method ≠ "GET") (h2 : method ≠ "HEAD") :
    extractBody method ct bodyText =
      (if strIncludes ct "application/json" then
        (parseJson bodyText).map
          (fun j => (OutBody.jsonText (jsonStringify j), some bodyText))
      else if strIncludes ct "multipart/form-data" then
        some (.formData bodyText, none)
      else
        some (.buffer bodyText, none)) := by
  unfold extractBody
  have hm : (method != "GET" && method != "HEAD") = true := by
    simp [bne_iff_ne, h1, h2]
  rw [if_pos hm]
  cases hjs : strIncludes ct "application/json" with
  | true =>
    simp only [if_true]
    cases hp : parseJson bodyText <;> simp
  | false =>
    simp only [Bool.false_eq_true, if_false]

theorem extractBody_bt (method ct bodyText : String) (b : OutBody) (t : String)
    (hE : extractBody method ct bodyText = some (b, some t)) :
    t = bodyText ∧
    ∃ j, parseJson bodyText = some j ∧ b = .jsonText (jsonStringify j) := by
  unfold extractBody at hE
  split at hE
  case isFalse => simp at hE
  case isTrue =>
    split at hE
    case isTrue =>
      cases hp : parseJson bodyText with
      | none => rw [hp] at hE; simp at hE
      | some j =>
        rw [hp] at hE
        simp only [Option.some.injEq, Prod.mk.injEq] at hE
        exact ⟨hE.2.symm ▸ rfl, j, rfl, hE.1.symm⟩
    case isFalse =>
      split at hE <;> simp at hE

theorem forwardRequest_upstreamCall_eq (cfg : Config) (req : IncomingRequest)
    (up : UpstreamBehavior) (now : String) (w : WebhookNet) :
    (forwardRequest cfg req up now w).upstreamCall =
      (extractBody req.method
          ((hGet (sanitizeHeaders cfg req.headers) "content-type").getD "")
          req.bodyText).map
        (fun p => { url := resolveUrl cfg.lettaApiUrl req.path,
                    method := req.method,
                    headers := sanitizeHeaders cfg req.headers,
                    body := p.1 }) := by
  cases hE : extractBody req.method
      ((hGet (sanitizeHeaders cfg req.headers) "content-type").getD "")
      req.bodyText with
  | none => simp only [forwardRequest, hE]; rfl
  | some p =>
    obtain ⟨b, bt⟩ := p
    cases up <;> simp only [forwardRequest, hE] <;> rfl

theorem forwardRequest_dispatch_eq (cfg : Config) (req : IncomingRequest)
    (st : Nat) (rb : String) (now : String) (w : WebhookNet) :
    (forwardRequest cfg req (.respond st rb) now w).webhookDispatched =
      (match extractBody req.method
          ((hGet (sanitizeHeaders cfg req.headers) "content-type").getD "")
          req.bodyText with
       | none => none
       | some (_, bt) =>
         maybeNotify (isMessageSendRequest req.path req.method) st rb bt
           req.path req.method now) := by
  cases hE : extractBody req.method
      ((hGet (sanitizeHeaders cfg req.headers) "content-type").getD "")
      req.bodyText with
  | none => simp only [forwardRequest, hE]
  | some p =>
    obtain ⟨b, bt⟩ := p
    simp only [forwardRequest, hE]

theorem maybeNotify_stream_ignores_body (isMsg : Bool) (st : Nat)
    (rb rb2 : String) (bt : Option String) (path method now : String)
    (hs : strIncludes path "/stream" = true) :
    maybeNotify isMsg st rb bt path method now =
      maybeNotify isMsg st rb2 bt path method now := by
  simp only [maybeNotify, hs, if_true]

theorem maybeNotify_isSome (isMsg : Bool) (st : Nat) (rb : String)
    (bt : Option String) (path method now : String)
    (hreq : ∀ t, bt = some t → (parseJson t).isSome = true) :
    (maybeNotify isMsg st rb bt path method now).isSome =
      (isMsg && statusOk st && bodyTruthy bt &&
       (strIncludes path "/stream" || (parseJson rb).isSome)) := by
  simp only [maybeNotify]
  cases hg : (isMsg && statusOk st && bodyTruthy bt) with
  | false => simp [hg]
  | true =>
    have hg' := hg
    simp only [Bool.and_eq_true] at hg'
    obtain ⟨hX, hbt⟩ := hg'
    cases bt with
    | none => simp [bodyTruthy] at hbt
    | some t =>
      have hpt := hreq t rfl
      obtain ⟨j, hj⟩ := Option.isSome_iff_exists.mp hpt
      cases hs : strIncludes path "/stream" with
      | true => simp [hg, hs, hj]
      | false =>
        cases hr : parseJson rb with
        | none => simp [hg, hs, hr]
        | some rj => simp [hg, hs, hr, hj]

theorem maybeNotify_payload (isMsg : Bool) (st : Nat) (rb : String)
    (bt : Option String) (path method now : String) (p : WebhookPayload)
    (hp : maybeNotify isMsg st rb bt path method now = some p) :
    ∃ t requestBody,
      bt = some t ∧ parseJson t = some requestBody ∧
      p.type = (if strIncludes path "/stream" then "stream_started"
                else "message_sent") ∧
      p.timestamp = now ∧
      p.prompt = jsOrEmpty (contentLookup requestBody) ∧
      p.reqPath = path ∧ p.reqMethod = method ∧ p.reqBody = requestBody ∧
      (strIncludes path "/stream" = true →
        p.response = .obj [("type", .str "stream_started"),
                           ("timestamp", .str now)]) ∧
      (strIncludes path "/stream" = false → parseJson rb = some p.response) := by
  cases hs : strIncludes path "/stream" with
  | true =>
    simp only [maybeNotify, hs, if_true] at hp
    split at hp
    case isFalse => exact Option.noConfusion hp
    case isTrue hg =>
      cases bt with
      | none => exact Option.noConfusion hp
      | some t =>
        simp only [] at hp
        cases hpt : parseJson t with
        | none => rw [hpt] at hp; exact Option.noConfusion hp
        | some requestBody =>
          rw [hpt] at hp
          simp only [] at hp
          obtain rfl := (Option.some.inj hp).symm
          exact ⟨t, requestBody, rfl, hpt, by simp, rfl, rfl, rfl, rfl, rfl,
            fun _ => rfl, fun hc => absurd hc (by simp)⟩
  | false =>
    simp only [maybeNotify, hs, Bool.false_eq_true, if_false] at hp
    split at hp
    case isFalse => exact Option.noConfusion hp
    case isTrue hg =>
      cases hr : parseJson rb with
      | none => rw [hr] at hp; exact Option.noConfusion hp
      | some rj =>
        rw [hr] at hp
        simp only [] at hp
        cases bt with
        | none => exact Option.noConfusion hp
        | some t =>
          simp only [] at hp
          cases hpt : parseJson t with
          | none => rw [hpt] at hp; exact Option.noConfusion hp
          | some requestBody =>
            rw [hpt] at hp
            simp only [] at hp
            obtain rfl := (Option.some.inj hp).symm
            exact ⟨t, requestBody, rfl, hpt, by simp, rfl, rfl, rfl, rfl, rfl,
              fun hc => absurd hc (by simp), fun _ => rfl⟩

/-! ### Claim C1: the request classifier -/

/-- C1 (amended): the classifier returns `isTracked = true` iff the method is
POST and SOME SUFFIX of the path matches one of the three §4.1 patterns —
`/v1/agents/{id}/messages[/stream]`, `/v1/groups/{id}/messages[/stream]`,
`/v1/messages/batches`, each with an optional trailing slash and `{id}` a
non-empty segment without `/`.  The source regexes are anchored only at the
end (`$`), so an arbitrary prefix may precede the pattern. -/
theorem classifier_tracks_iff_suffix_pattern (path method : String) :
    isMessageSendRequest path method = true ↔
      (method = "POST" ∧
        (SuffixOf (SegPattern agentHeader) path.toList ∨
         SuffixOf (SegPattern groupHeader) path.toList ∨
         SuffixOf BatchPattern path.toList)) := by
  rw [isMessageSendRequest_eq_or]
  simp only [Bool.and_eq_true, Bool.or_eq_true, beq_iff_eq, regexSearch_iff, SuffixOf]
  constructor
  · rintro ⟨h, hm⟩
    refine ⟨hm, ?_⟩
    rcases h with (⟨suf, hs, hf⟩ | ⟨suf, hs, hf⟩) | ⟨suf, hs, hf⟩
    · exact Or.inl ⟨suf, hs, (matchSegAt_iff _ _).mp hf⟩
    · exact Or.inr (Or.inl ⟨suf, hs, (matchSegAt_iff _ _).mp hf⟩)
    · exact Or.inr (Or.inr ⟨suf, hs, (matchBatchAt_iff _).mp hf⟩)
  · rintro ⟨hm, h⟩
    refine ⟨?_, hm⟩
    rcases h with ⟨suf, hs, hp⟩ | ⟨suf, hs, hp⟩ | ⟨suf, hs, hp⟩
    · exact Or.inl (Or.inl ⟨suf, hs, (matchSegAt_iff _ _).mpr hp⟩)
    · exact Or.inl (Or.inr ⟨suf, hs, (matchSegAt_iff _ _).mpr hp⟩)
    · exact Or.inr ⟨suf, hs, (matchBatchAt_iff _).mpr hp⟩

/-- C1 (counterexample): a POST whose path merely ENDS with the agent-messages
pattern — here behind the extra leading segment `/x` — is classified as
tracked, although the path as a whole matches none of the three §4.1
patterns; so the classifier is not the claimed exact-pattern test. -/
theorem classifier_accepts_unanchored_path :
    isMessageSendRequest "/x/v1/agents/a/messages" "POST" = true ∧
      ¬ (SegPattern agentHeader "/x/v1/agents/a/messages".toList ∨
         SegPattern groupHeader "/x/v1/agents/a/messages".toList ∨
         BatchPattern "/x/v1/agents/a/messages".toList) := by
  refine ⟨by decide, ?_⟩
  rintro (h | h | h)
  · exact absurd ((matchSegAt_iff _ _).mpr h) (by decide)
  · exact absurd ((matchSegAt_iff _ _).mpr h) (by decide)
  · exact absurd ((matchBatchAt_iff _).mpr h) (by decide)

/-! ### Claim C2: the upstream URL -/

/-- C2 (amended): every upstream call actually issued for a (non-OPTIONS)
request goes to the ORIGIN of the configured base URL joined with the
original request pathname; the inbound query string is not propagated — the
whole outcome is invariant under changing it — and any path component of the
configured base is likewise dropped by `new URL`'s absolute-path
resolution. -/
theorem upstream_url_is_origin_and_pathname (cfg : Config) (req : IncomingRequest)
    (up : UpstreamBehavior) (now : String) (w : WebhookNet) (c : UpstreamCall)
    (hm : req.method ≠ "OPTIONS")
    (hc : (handleRequest cfg req up now w).upstreamCall = some c) :
    c.url = urlOrigin cfg.lettaApiUrl ++ req.path ∧
    (∀ q, handleRequest cfg { req with query := q } up now w =
      handleRequest cfg req up now w) := by
  constructor
  · have hbeq : (req.method == "OPTIONS") = false := beq_false_of_ne hm
    simp only [handleRequest, hbeq, Bool.false_eq_true, if_false] at hc
    exact (forwardRequest_call_fields cfg req up now w c hc).1
  · intro q
    rfl

/-- C2 (counterexample): a GET to pathname `/v1/agents` carrying the query
string `limit=5` is forwarded to `http://letta.example:8283/v1/agents` — not
to the spec-promised `<base><path>?<query>` URL, which would retain the
query string. -/
theorem upstream_url_drops_query :
    ((forwardRequest cfgEx reqQueryEx (.respond 200 "[]") "T" whEx).upstreamCall).map
        (fun c => c.url) = some "http://letta.example:8283/v1/agents" ∧
    specUpstreamUrl cfgEx reqQueryEx = "http://letta.example:8283/v1/agents?limit=5" ∧
    ("http://letta.example:8283/v1/agents" : String) ≠
      "http://letta.example:8283/v1/agents?limit=5" := by
  exact ⟨by decide, by decide, by decide⟩

/-- C2 (witness): the amended theorem applied to a concrete GET request. -/
theorem upstream_url_is_origin_and_pathname_witness :
    upstreamQueryCallEx.url = "http://letta.example:8283/v1/agents" := by
  have h := upstream_url_is_origin_and_pathname cfgEx reqQueryEx
    (.respond 200 "[]") "T" whEx upstreamQueryCallEx (by decide) (by decide)
  exact h.1

/-! ### Claim C3: header sanitization -/

/-- C3: the headers of every issued upstream call contain no `host`,
`connection` or `content-length` entry and no caller-supplied
`Authorization`; `Authorization` is exactly `Bearer <key>` when an upstream
key is configured and absent otherwise; every other header is passed through
unchanged. -/
theorem upstream_headers_sanitized (cfg : Config) (req : IncomingRequest)
    (up : UpstreamBehavior) (now : String) (w : WebhookNet) (c : UpstreamCall)
    (hc : (forwardRequest cfg req up now w).upstreamCall = some c) :
    hGet c.headers "host" = none ∧
    hGet c.headers "connection" = none ∧
    hGet c.headers "content-length" = none ∧
    (∀ k, cfg.lettaApiKey = some k →
      hGet c.headers "Authorization" = some ("Bearer " ++ k)) ∧
    (cfg.lettaApiKey = none → hGet c.headers "Authorization" = none) ∧
    (∀ name, lowerStr name ∉ (["host", "connection", "content-length",
        "authorization"] : List String) →
      hGet c.headers name = hGet req.headers name) := by
  obtain ⟨-, -, hh, -⟩ := forwardRequest_call_fields cfg req up now w c hc
  rw [hh]
  exact sanitize_spec cfg req.headers

/-- C3 (witness): the theorem applied to a concrete POST whose caller sent
`Host`, `Connection`, `Content-Length` and its own `Authorization`. -/
theorem upstream_headers_sanitized_witness :
    hGet upstreamCallEx.headers "host" = none ∧
    hGet upstreamCallEx.headers "Authorization" = some ("Bearer " ++ "KEY") ∧
    hGet upstreamCallEx.headers "x-custom" = hGet reqEx.headers "x-custom" := by
  have h := upstream_headers_sanitized cfgEx reqEx
    (.respond 200 "\x7b\"id\":\"m1\"\x7d") "T" whEx upstreamCallEx (by decide)
  exact ⟨h.1, h.2.2.2.1 "KEY" rfl, h.2.2.2.2.2 "x-custom" (by decide)⟩

/-! ### Claim C5: malformed JSON bodies -/

/-- C5: a non-GET/HEAD request declaring an `application/json` content-type
whose body does not parse is answered with status 500 and the JSON
`{error, details}` envelope, and neither an upstream call nor any webhook
activity takes place. -/
theorem malformed_json_aborts_with_500 (cfg : Config) (req : IncomingRequest)
    (up : UpstreamBehavior) (now : String) (w : WebhookNet)
    (h1 : req.method ≠ "GET") (h2 : req.method ≠ "HEAD")
    (hct : strIncludes ((hGet req.headers "content-type").getD "")
      "application/json" = true)
    (hp : parseJson req.bodyText = none) :
    (forwardRequest cfg req up now w).upstreamCall = none ∧
    clientStatus (forwardRequest cfg req up now w).response = 500 ∧
    clientBody (forwardRequest cfg req up now w).response =
      jsonStringify (.obj [("error", .str "Proxy error"),
                          ("details", .str parseFailDetails)]) ∧
    (forwardRequest cfg req up now w).webhookDispatched = none ∧
    (forwardRequest cfg req up now w).webhookCall = none := by
  have hpre := (sanitize_spec cfg req.headers).2.2.2.2.2 "content-type" (by decide)
  have hE : extractBody req.method
      ((hGet (sanitizeHeaders cfg req.headers) "content-type").getD "")
      req.bodyText = none := by
    rw [hpre, extractBody_eq_branch _ _ _ h1 h2, if_pos hct, hp]
    rfl
  simp only [forwardRequest, hE]
  repeat' apply And.intro
  all_goals trivial

/-- C5 (witness): a concrete POST declaring `application/json` with body
`notjson` yields a 500 and no upstream call. -/
theorem malformed_json_aborts_with_500_witness :
    clientStatus (forwardRequest cfgEx reqBadJsonEx (.respond 200 "ok") "T" whEx).response = 500 ∧
    (forwardRequest cfgEx reqBadJsonEx (.respond 200 "ok") "T" whEx).upstreamCall = none := by
  have h := malformed_json_aborts_with_500 cfgEx reqBadJsonEx (.respond 200 "ok")
    "T" whEx (by decide) (by decide) (by decide) (by rfl)
  exact ⟨h.2.1, h.1⟩

/-! ### Claim C9: OPTIONS preflight -/

/-- C9: every `OPTIONS` request is answered with status 204 and the
permissive CORS headers (origin `*`, the six configured methods, all
headers, credentials enabled, max-age 86400) without any upstream call or
webhook activity; every non-OPTIONS request enters the forwarder, so the
`OPTIONS` interception is the only branch that bypasses forwarding. -/
theorem options_preflight_bypasses_forwarding (cfg : Config)
    (req : IncomingRequest) (up : UpstreamBehavior) (now : String)
    (w : WebhookNet) :
    (req.method = "OPTIONS" →
      (handleRequest cfg req up now w).upstreamCall = none ∧
      (handleRequest cfg req up now w).response = .preflight corsPreflightHeaders ∧
      clientStatus (handleRequest cfg req up now w).response = 204 ∧
      hGet corsPreflightHeaders "access-control-allow-origin" = some "*" ∧
      hGet corsPreflightHeaders "access-control-allow-methods" =
        some "GET,POST,PUT,DELETE,OPTIONS,PATCH" ∧
      hGet corsPreflightHeaders "access-control-allow-headers" = some "*" ∧
      hGet corsPreflightHeaders "access-control-allow-credentials" = some "true" ∧
      hGet corsPreflightHeaders "access-control-max-age" = some "86400" ∧
      (handleRequest cfg req up now w).webhookCall = none) ∧
    (req.method ≠ "OPTIONS" →
      handleRequest cfg req up now w = forwardRequest cfg req up now w) := by
  constructor
  · intro hm
    have hbeq : (req.method == "OPTIONS") = true := beq_iff_eq.mpr hm
    simp only [handleRequest, hbeq, if_true]
    repeat' apply And.intro
    all_goals trivial
  · intro hm
    have hbeq : (req.method == "OPTIONS") = false := beq_false_of_ne hm
    simp only [handleRequest, hbeq, Bool.false_eq_true, if_false]

/-- C9 (witness): a concrete `OPTIONS` request gets 204 and no upstream
call, even while the upstream would answer 500. -/
theorem options_preflight_witness :
    (handleRequest cfgEx reqOptionsEx (.respond 500 "down") "T" whEx).upstreamCall = none ∧
    clientStatus (handleRequest cfgEx reqOptionsEx (.respond 500 "down") "T" whEx).response = 204 := by
  have h := (options_preflight_bypasses_forwarding cfgEx reqOptionsEx
    (.respond 500 "down") "T" whEx).1 rfl
  exact ⟨h.1, h.2.2.1⟩

/-! ### Claim C10: body-branch selection -/

/-- C10: for non-GET/HEAD requests the body branch is chosen by substring
containment on the content-type, JSON first, then multipart, else an opaque
buffer; in the JSON branch the body forwarded upstream is the
re-serialization `JSON.stringify(JSON.parse(text))`, not the original
text (and an unparsable body yields no upstream call). -/
theorem body_branch_selection (cfg : Config) (req : IncomingRequest)
    (up : UpstreamBehavior) (now : String) (w : WebhookNet)
    (h1 : req.method ≠ "GET") (h2 : req.method ≠ "HEAD") :
    (forwardRequest cfg req up now w).upstreamCall.map (fun c => c.body) =
      (if strIncludes ((hGet req.headers "content-type").getD "")
          "application/json" then
        (parseJson req.bodyText).map (fun j => OutBody.jsonText (jsonStringify j))
      else if strIncludes ((hGet req.headers "content-type").getD "")
          "multipart/form-data" then
        some (.formData req.bodyText)
      else
        some (.buffer req.bodyText)) := by
  have hpre := (sanitize_spec cfg req.headers).2.2.2.2.2 "content-type" (by decide)
  rw [forwardRequest_upstreamCall_eq, hpre, extractBody_eq_branch _ _ _ h1 h2]
  cases strIncludes ((hGet req.headers "content-type").getD "") "application/json" with
  | true =>
    simp only [if_true]
    cases parseJson req.bodyText <;> rfl
  | false =>
    simp only [Bool.false_eq_true, if_false]
    cases strIncludes ((hGet req.headers "content-type").getD "") "multipart/form-data" <;> rfl

/-- C10 (witness): with content-type `application/json; charset=utf-8` the
JSON branch runs and forwards the canonical re-serialization, which differs
from the original spaced body text. -/
theorem body_branch_selection_witness :
    (forwardRequest cfgEx reqSpacedEx (.respond 200 "\x7b\x7d") "T" whEx).upstreamCall.map
      (fun c => c.body) = some (.jsonText "\x7b\"a\":1\x7d") ∧
    reqSpacedEx.bodyText ≠ "\x7b\"a\":1\x7d" := by
  have h := body_branch_selection cfgEx reqSpacedEx (.respond 200 "\x7b\x7d")
    "T" whEx (by decide) (by decide)
  exact ⟨h.trans (by decide), by decide⟩

/-! ### Claim C4: the webhook trigger condition -/

/-- C4 (amended): the notifier is invoked with a payload iff the request is
tracked, the upstream status is 2xx, a JSON request body was captured
(non-empty), AND — the condition the claim omits — the path contains
`/stream` or the upstream response body parses as JSON (otherwise
`responseClone.json()` throws and the notification is silently dropped). -/
theorem webhook_dispatch_iff (cfg : Config) (req : IncomingRequest) (st : Nat)
    (rb now : String) (w : WebhookNet) :
    (forwardRequest cfg req (.respond st rb) now w).webhookDispatched.isSome =
      (isMessageSendRequest req.path req.method && statusOk st &&
       bodyTruthy (capturedText cfg req) &&
       (strIncludes req.path "/stream" || (parseJson rb).isSome)) := by
  rw [forwardRequest_dispatch_eq]
  cases hE : extractBody req.method
      ((hGet (sanitizeHeaders cfg req.headers) "content-type").getD "")
      req.bodyText with
  | none =>
    simp only [capturedText, hE]
    simp [bodyTruthy]
  | some p =>
    obtain ⟨b, bt⟩ := p
    simp only [capturedText, hE]
    apply maybeNotify_isSome
    intro t ht
    subst ht
    obtain ⟨ht', j, hj, -⟩ := extractBody_bt _ _ _ _ _ hE
    subst ht'
    simp [hj]

/-- C4 (counterexample): a tracked POST with a captured JSON body whose
upstream answers 200 with the non-JSON body `ok` triggers NO webhook,
although the claim's three conditions all hold. -/
theorem webhook_not_dispatched_on_nonjson_response :
    isMessageSendRequest reqEx.path reqEx.method = true ∧
    statusOk 200 = true ∧
    bodyTruthy (capturedText cfgEx reqEx) = true ∧
    (forwardRequest cfgEx reqEx (.respond 200 "ok") "T"
      whEx).webhookDispatched.isSome = false := by
  exact ⟨by decide, by decide, by decide, by decide⟩

/-! ### Claim C6: stream detection and the stream marker -/

/-- C6 (amended): a dispatched notification is a streaming one exactly when
the path contains the SUBSTRING `/stream` (the source tests
`path.includes('/stream')`, not a path segment): then the type is
`stream_started`, the `response` field is exactly the
`{type: "stream_started", timestamp}` marker, and the dispatched payload
does not depend on the upstream response body; otherwise the type is
`message_sent` and `response` is the upstream body parsed as JSON. -/
theorem webhook_stream_marker (cfg : Config) (req : IncomingRequest) (st : Nat)
    (rb now : String) (w : WebhookNet) (p : WebhookPayload)
    (hp : (forwardRequest cfg req (.respond st rb) now w).webhookDispatched =
      some p) :
    (strIncludes req.path "/stream" = true →
      p.type = "stream_started" ∧
      p.response = .obj [("type", .str "stream_started"),
                         ("timestamp", .str now)] ∧
      ∀ rb2, (forwardRequest cfg req (.respond st rb2) now
        w).webhookDispatched = some p) ∧
    (strIncludes req.path "/stream" = false →
      p.type = "message_sent" ∧ parseJson rb = some p.response) := by
  rw [forwardRequest_dispatch_eq] at hp
  cases hE : extractBody req.method
      ((hGet (sanitizeHeaders cfg req.headers) "content-type").getD "")
      req.bodyText with
  | none => rw [hE] at hp; exact Option.noConfusion hp
  | some pr =>
    obtain ⟨b, bt⟩ := pr
    rw [hE] at hp
    simp only [] at hp
    obtain ⟨t, requestBody, hbt, hpt, htype, -, -, -, -, -, hsm, hns⟩ :=
      maybeNotify_payload _ _ _ _ _ _ _ _ hp
    constructor
    · intro hs
      refine ⟨by rw [htype, if_pos (by rw [hs])], hsm hs, ?_⟩
      intro rb2
      rw [forwardRequest_dispatch_eq, hE]
      simp only []
      rw [maybeNotify_stream_ignores_body _ st rb2 rb bt _ _ now hs]
      exact hp
    · intro hs
      refine ⟨by rw [htype, if_neg (by rw [hs]; exact Bool.false_ne_true)], hns hs⟩

/-- C6 (witness): for a concrete streaming request whose upstream answers
200 with an unparsable body, the dispatched payload is the stream marker —
and the response body was demonstrably never read. -/
theorem webhook_stream_marker_witness :
    streamPayloadEx.type = "stream_started" ∧
    streamPayloadEx.response = .obj [("type", .str "stream_started"),
                                     ("timestamp", .str "T")] := by
  have h := (webhook_stream_marker cfgEx reqStreamEx 200 "NOTJSON" "T" whEx
    streamPayloadEx rfl).1 (by decide)
  exact ⟨h.1, h.2.1⟩

/-- C6 (counterexample): the path `/v1/agents/stream123/messages` has no
`stream` segment, yet the dispatched payload's type is `stream_started`:
the source's substring test misclassifies it as streaming, contradicting
the claim's segment-based reading. -/
theorem webhook_stream_substring_not_segment :
    hasStreamSegment "/v1/agents/stream123/messages" = false ∧
    (forwardRequest cfgEx reqFakeStreamEx (.respond 200 "\x7b\"id\":\"m1\"\x7d")
      "T" whEx).webhookDispatched.map (fun p => p.type) = some "stream_started" ∧
    ("stream_started" : String) ≠ "message_sent" := by
  exact ⟨by decide, rfl, by decide⟩

/-! ### Claim C7: webhook failures are invisible to the caller -/

/-- C7: the outcome of a request — upstream call, client response, and the
single (never retried) webhook call — is invariant under the behaviour of
the webhook target, because the dispatch is never awaited and every failure
is swallowed; and whenever the upstream call is issued and the upstream
responds, the caller receives exactly that response, webhook and
payload-construction failures included. -/
theorem webhook_failures_invisible (cfg : Config) (req : IncomingRequest)
    (up : UpstreamBehavior) (now : String) (w1 w2 : WebhookNet) :
    forwardRequest cfg req up now w1 = forwardRequest cfg req up now w2 ∧
    (∀ st rb c,
      (forwardRequest cfg req (.respond st rb) now w1).upstreamCall = some c →
      (forwardRequest cfg req (.respond st rb) now w1).response =
        .relayed st rb) := by
  refine ⟨rfl, ?_⟩
  intro st rb c hc
  cases hE : extractBody req.method
      ((hGet (sanitizeHeaders cfg req.headers) "content-type").getD "")
      req.bodyText with
  | none =>
    simp only [forwardRequest, hE] at hc
    exact Option.noConfusion hc
  | some p =>
    obtain ⟨b, bt⟩ := p
    simp only [forwardRequest, hE]

/-- C7 (witness): a dead webhook target (network failure on every call)
yields the very same outcome as a healthy one, and the caller gets the
upstream response. -/
theorem webhook_failures_invisible_witness :
    forwardRequest cfgEx reqEx (.respond 200 "\x7b\"id\":\"m1\"\x7d") "T" whEx =
      forwardRequest cfgEx reqEx (.respond 200 "\x7b\"id\":\"m1\"\x7d") "T"
        (fun _ => none) ∧
    (forwardRequest cfgEx reqEx (.respond 200 "\x7b\"id\":\"m1\"\x7d") "T"
      whEx).response = .relayed 200 "\x7b\"id\":\"m1\"\x7d" := by
  have h := webhook_failures_invisible cfgEx reqEx
    (.respond 200 "\x7b\"id\":\"m1\"\x7d") "T" whEx (fun _ => none)
  exact ⟨h.1, h.2 200 "\x7b\"id\":\"m1\"\x7d" upstreamCallEx (by decide)⟩

/-! ### Claim C8: the prompt field -/

/-- C8 (amended): the `prompt` field of every dispatched payload equals
`request.messages[0].content` when that value is present AND truthy in the
JavaScript sense, and the empty string when it is absent or falsy (`null`,
`false`, `0`, `""`); a truthy non-string content is passed through
unchanged, so `prompt` is not always a string. -/
theorem webhook_prompt_field (cfg : Config) (req : IncomingRequest) (st : Nat)
    (rb now : String) (w : WebhookNet) (p : WebhookPayload)
    (hp : (forwardRequest cfg req (.respond st rb) now w).webhookDispatched =
      some p) :
    p.prompt = jsOrEmpty (contentLookup p.reqBody) := by
  rw [forwardRequest_dispatch_eq] at hp
  cases hE : extractBody req.method
      ((hGet (sanitizeHeaders cfg req.headers) "content-type").getD "")
      req.bodyText with
  | none => rw [hE] at hp; exact Option.noConfusion hp
  | some pr =>
    obtain ⟨b, bt⟩ := pr
    rw [hE] at hp
    simp only [] at hp
    obtain ⟨t, requestBody, -, -, -, -, hprompt, -, -, hbody, -, -⟩ :=
      maybeNotify_payload _ _ _ _ _ _ _ _ hp
    rw [hprompt, hbody]

/-- C8 (witness): the theorem applied to a concrete request whose
`messages[0].content` is the truthy string `hi`. -/
theorem webhook_prompt_field_witness :
    msgPayloadEx.prompt = jsOrEmpty (contentLookup msgPayloadEx.reqBody) :=
  webhook_prompt_field cfgEx reqEx 200 "\x7b\"id\":\"m1\"\x7d" "T" whEx
    msgPayloadEx rfl

/-- C8 (counterexample): with `content: 0` the content is present yet the
prompt is the empty string, not `0`; and with `content: 42` the prompt is
the number `42`, not a string — refuting both halves of the claim. -/
theorem webhook_prompt_falsy_and_nonstring :
    (forwardRequest cfgEx reqZeroContentEx (.respond 200 "\x7b\"id\":\"m1\"\x7d")
      "T" whEx).webhookDispatched.map (fun p => p.prompt) = some (.str "") ∧
    contentLookup (.obj [("messages", .arr [.obj [("content", .num 0)]])]) =
      some (.num 0) ∧
    Json.str "" ≠ Json.num 0 ∧
    (forwardRequest cfgEx reqNumContentEx (.respond 200 "\x7b\"id\":\"m1\"\x7d")
      "T" whEx).webhookDispatched.map (fun p => isJsonString p.prompt) =
      some false := by
  exact ⟨rfl, rfl, fun h => Json.noConfusion h, rfl⟩

end LettaProxy
